import Mathlib

set_option synthInstance.maxSize 512

/-!
Verification of the ABEL spreadsheet validator
(`tools/abel/validators/spreadsheet_validator.py`).

The Python module is shallowly embedded here:

* a spreadsheet row (`Dict[str, str]`) is an association list `Row`
  (Python dicts have unique keys; lookup returns the first match);
* a sheet (`List[Dict[str, str]]`) is `Sheet`, a parsed spreadsheet
  (`Dict[str, List[Dict[str, str]]]`) is `Spreadsheet`;
* a Python `KeyError` raised by direct indexing `d[k]` is modelled by
  `Except String`, the error value carrying the missing key;
* the error classes of `validators/spreadsheet_error.py` (not needed beyond
  their constructor payloads) become the inductive `VError`;
* the module-level constants imported from `model/constants.py` (table names,
  column names, required/all header lists) are external configuration; they
  are a parameter `Constants` of every definition and theorem.

Statement accumulation in `Validate` is written `self.validation_errors += e`.
For a Python list attribute this loads the old list, evaluates the right-hand
side, extends the old list in place and stores it back, so even though
`_ValidateContents` and `_ValidateFieldsAcrossSheets` rebind
`self.validation_errors` to a fresh list internally, the net effect of each
`+=` statement is plain concatenation onto the previously accumulated list;
the embedding of `Validate` therefore concatenates the lists returned by the
individual validators, and threads the instance attribute
`self.validation_errors` as an explicit `errs0` argument.

Python `set` objects are used only for membership tests and for enumerating
`header_difference`; they are modelled by lists with explicit deduplication
(`setUnion` below preserves the no-duplicates invariant); set iteration
order is unspecified in the source, and every theorem below about the
errors produced from a set is order-independent (membership and counts).
-/

abbrev Row : Type := List (String × String)

abbrev Sheet : Type := List Row

abbrev Spreadsheet : Type := List (String × Sheet)

/-- The five error classes of `validators/spreadsheet_error.py`, reduced to
their constructor payloads: `SpreadsheetHeaderError(table, header, message)`,
`MissingSpreadsheetValueError(table, row, column, message)`,
`DuplicateCodeError(code, message)`,
`CrossSheetDependencyError(source_table, target_table, row, column, cell_value)`
(the cell value comes from a `.get` call and may be Python `None`, hence
`Option String`), and `ConnectionDependencyError(row, missing_code,
present_code)`. -/
inductive VError : Type where
  | header (table : String) (hdr : String) (message : String)
  | missingValue (table : String) (row : Nat) (column : String) (message : String)
  | duplicateCode (code : String) (message : String)
  | crossSheet (sourceTable : String) (targetTable : String) (row : Nat)
      (column : String) (cellValue : Option String)
  | connection (row : Nat) (missingCode : String) (presentCode : String)
  deriving DecidableEq, Repr

/-- The string and list constants imported from `model/constants.py`.  Their
concrete values live outside the validator module; everything is proved for
arbitrary values. -/
structure Constants : Type where
  SITES : String
  ENTITIES : String
  ENTITY_FIELDS : String
  STATES : String
  CONNECTIONS : String
  ENTITY_CODE : String
  BUILDING_CODE : String
  BC_GUID : String
  NAMESPACE : String
  FACILITIES_NAMESPACE : String
  SOURCE_ENTITY_CODE : String
  TARGET_ENTITY_CODE : String
  STANDARD_FIELD_NAME : String
  REPORTING_ENTITY_CODE : String
  REPORTING_ENTITY_FIELD_NAME : String
  REQUIRED_SITE_HEADERS : List String
  ALL_SITE_HEADERS : List String
  REQUIRED_ENTITY_HEADERS : List String
  ALL_ENTITY_HEADERS : List String
  REQUIRED_FIELD_HEADERS : List String
  ALL_FIELD_HEADERS : List String
  REQUIRED_STATE_HEADERS : List String
  ALL_STATE_HEADERS : List String
  REQUIRED_CONNECTION_HEADERS : List String
  ALL_CONNECTION_HEADERS : List String
  deriving Repr

/-- `_ROW_START_INDEX = 2` (line 53 of the source). -/
def ROW_START_INDEX : Nat := 2

/-- Python dict read `row.get(k)`: first binding of the key, if any. -/
def rowFind : Row → String → Option String
  | [], _ => none
  | (k, v) :: rest, key => if k = key then some v else rowFind rest key

/-- Python dict read `parsed_spreadsheet.get(k)` at the top level. -/
def spFind : Spreadsheet → String → Option Sheet
  | [], _ => none
  | (k, v) :: rest, key => if k = key then some v else spFind rest key

/-- Python direct indexing `row[k]`: a missing key raises `KeyError(k)`. -/
def keyIndex (row : Row) (k : String) : Except String String :=
  match rowFind row k with
  | some v => Except.ok v
  | none => Except.error k

/-- Python direct indexing `parsed_spreadsheet[k]` at the top level. -/
def spIndex (sp : Spreadsheet) (k : String) : Except String Sheet :=
  match spFind sp k with
  | some v => Except.ok v
  | none => Except.error k

/-- `row.keys()`. -/
def rowKeys (row : Row) : List String :=
  row.map Prod.fst

/-- Adding one element to a Python set: a no-op when already present. -/
def insertNew (l : List String) (x : String) : List String :=
  if x ∈ l then l else l ++ [x]

/-- Python set union `a | b`, as a list without duplicates (given `a` has
none); only membership and element count are relied upon. -/
def setUnion (a b : List String) : List String :=
  b.foldl insertNew a

/-- The loop of `SpreadsheetValidator._ValidateHeaders` (source lines
253-259): per row, `parsed_headers` grows by the row's keys and
`header_difference` grows by `set(column_headers).difference(parsed_headers)`.
Only membership in `parsed` is used, so it is kept as a plain list. -/
def validateHeadersAux (columnHeaders : List String) :
    List String → List String → Sheet → List String
  | _, diff, [] => diff
  | parsed, diff, row :: rest =>
    let parsed' := parsed ++ rowKeys row
    validateHeadersAux columnHeaders parsed'
      (setUnion diff (columnHeaders.filter (fun h => decide (h ∉ parsed')))) rest

/-- `SpreadsheetValidator._ValidateHeaders` (source lines 239-267): one
`SpreadsheetHeaderError` per header in the accumulated difference. -/
def validateHeaders (table : String) (parsedSheet : Sheet)
    (columnHeaders : List String) : List VError :=
  (validateHeadersAux columnHeaders [] [] parsedSheet).map
    (fun h => VError.header table h (table ++ " missing required column header: " ++ h))

/-- Recognizer for a `SpreadsheetHeaderError` about header `h`. -/
def isHeaderFor (h : String) : VError → Bool
  | VError.header _ hd _ => hd = h
  | _ => false

theorem mem_insertNew {l : List String} {x y : String} :
    y ∈ insertNew l x ↔ y ∈ l ∨ y = x := by
  unfold insertNew
  by_cases hx : x ∈ l
  · simp only [if_pos hx]
    constructor
    · exact Or.inl
    · rintro (h | rfl)
      · exact h
      · exact hx
  · simp [if_neg hx]

theorem nodup_insertNew {l : List String} {x : String} (h : l.Nodup) :
    (insertNew l x).Nodup := by
  unfold insertNew
  by_cases hx : x ∈ l
  · simpa [if_pos hx]
  · simp only [if_neg hx]
    simpa [List.nodup_append, h] using hx

theorem mem_setUnion {a b : List String} {y : String} :
    y ∈ setUnion a b ↔ y ∈ a ∨ y ∈ b := by
  induction b generalizing a with
  | nil => simp [setUnion]
  | cons x xs ih =>
    show y ∈ setUnion (insertNew a x) xs ↔ _
    rw [ih, mem_insertNew]
    simp only [List.mem_cons]
    tauto

theorem nodup_setUnion {a b : List String} (h : a.Nodup) :
    (setUnion a b).Nodup := by
  induction b generalizing a with
  | nil => exact h
  | cons x xs ih => exact ih (nodup_insertNew h)

theorem validateHeadersAux_mono {columnHeaders parsed diff : List String}
    {rows : Sheet} {h : String} (hmem : h ∈ diff) :
    h ∈ validateHeadersAux columnHeaders parsed diff rows := by
  induction rows generalizing parsed diff with
  | nil => exact hmem
  | cons row rest ih =>
    exact ih (mem_setUnion.mpr (Or.inl hmem))

theorem validateHeadersAux_not_mem {columnHeaders parsed diff : List String}
    {rows : Sheet} {h : String} (hp : h ∈ parsed) (hd : h ∉ diff) :
    h ∉ validateHeadersAux columnHeaders parsed diff rows := by
  induction rows generalizing parsed diff with
  | nil => exact hd
  | cons row rest ih =>
    apply ih (List.mem_append.mpr (Or.inl hp))
    intro hcon
    rcases mem_setUnion.mp hcon with hold | hnew
    · exact hd hold
    · have := List.of_mem_filter hnew
      exact absurd (List.mem_append.mpr (Or.inl hp)) (by simpa using this)

theorem validateHeadersAux_nodup {columnHeaders parsed diff : List String}
    {rows : Sheet} (h : diff.Nodup) :
    (validateHeadersAux columnHeaders parsed diff rows).Nodup := by
  induction rows generalizing parsed diff with
  | nil => exact h
  | cons row rest ih => exact ih (nodup_setUnion h)

/-- The inner loop body of `SpreadsheetValidator._ValidateContents` (source
lines 144-151): for one row at 1-based spreadsheet position `rowNumber`,
check every header of `colHeadersValues` in order; `row[header]` is direct
indexing and an empty value appends a `MissingSpreadsheetValueError`. -/
def contentsRow (table : String) (rowNumber : Nat) (row : Row) :
    List String → Except String (List VError)
  | [] => Except.ok []
  | h :: hs => do
    let v ← keyIndex row h
    let es ← contentsRow table rowNumber row hs
    pure ((if v = "" then
        [VError.missingValue table rowNumber h (table ++ " entry must have a " ++ h)]
      else []) ++ es)

/-- The row loop of `SpreadsheetValidator._ValidateContents`:
`enumerate(parsed_sheet, _ROW_START_INDEX)`. -/
def validateContentsAux (table : String) (colHeadersValues : List String) :
    Nat → Sheet → Except String (List VError)
  | _, [] => Except.ok []
  | k, row :: rest => do
    let e ← contentsRow table k row colHeadersValues
    let es ← validateContentsAux table colHeadersValues (k + 1) rest
    pure (e ++ es)

/-- `SpreadsheetValidator._ValidateContents` (source lines 123-152). -/
def validateContents (table : String) (parsedSheet : Sheet)
    (colHeadersValues : List String) : Except String (List VError) :=
  validateContentsAux table colHeadersValues ROW_START_INDEX parsedSheet

/-- The comprehension `[row[key] for row in sheet]` (with direct indexing),
used both for `list_of_codes` in `_ValidateEntityCodes` and for the two code
sets in `_ValidateConnections`. -/
def codesOf (key : String) : Sheet → Except String (List String)
  | [] => Except.ok []
  | row :: rest => do
    let c ← keyIndex row key
    let cs ← codesOf key rest
    pure (c :: cs)

/-- First occurrence of each element, in first-occurrence order, skipping
anything already `seen`. -/
def firstDedupAux (seen : List String) : List String → List String
  | [] => []
  | x :: xs =>
    if x ∈ seen then firstDedupAux seen xs
    else x :: firstDedupAux (seen ++ [x]) xs

/-- First occurrence of each element, in first-occurrence order: the key
sequence of `collections.Counter(codes).items()`. -/
def firstDedup (l : List String) : List String :=
  firstDedupAux [] l

/-- The `duplicates` comprehension plus the error loop of
`SpreadsheetValidator._ValidateEntityCodes` (source lines 343-354): one
`DuplicateCodeError` per code whose occurrence count exceeds 1. -/
def dupErrors (entitiesTableName : String) (codes : List String) : List VError :=
  ((firstDedup codes).filter (fun cd => decide (1 < codes.count cd))).map
    (fun cd => VError.duplicateCode cd
      ("Entity Code: " ++ cd ++ " is defined more than once in " ++
        entitiesTableName ++ " table."))

/-- `SpreadsheetValidator._ValidateEntityCodes` (source lines 332-354). -/
def validateEntityCodes (c : Constants) (sheet : Sheet) :
    Except String (List VError) := do
  let codes ← codesOf c.ENTITY_CODE sheet
  pure (dupErrors c.ENTITIES codes)

/-- The loop of `SpreadsheetValidator.ValidateFacilitiesGuids` (source lines
320-330).  `enumerate(sheet)` starts at 0, not at `_ROW_START_INDEX`; the
`and` short-circuits, so `row[NAMESPACE]` is read only when `row[BC_GUID]`
is empty, and `row[ENTITY_CODE]` is read only when building the message. -/
def validateFacilitiesGuidsAux (c : Constants) :
    Nat → Sheet → Except String (List VError)
  | _, [] => Except.ok []
  | n, row :: rest => do
    let guid ← keyIndex row c.BC_GUID
    let here ←
      if guid = "" then do
        let ns ← keyIndex row c.NAMESPACE
        if ns = c.FACILITIES_NAMESPACE then do
          let ec ← keyIndex row c.ENTITY_CODE
          pure [VError.missingValue c.ENTITIES n c.BC_GUID
            (ec ++ " in " ++ c.FACILITIES_NAMESPACE ++
              " namespace must have a guid obtained through DB API export building config operation.")]
        else pure []
      else pure []
    let es ← validateFacilitiesGuidsAux c (n + 1) rest
    pure (here ++ es)

/-- `SpreadsheetValidator.ValidateFacilitiesGuids` (source lines 309-330). -/
def validateFacilitiesGuids (c : Constants) (sheet : Sheet) :
    Except String (List VError) :=
  validateFacilitiesGuidsAux c 0 sheet

/-- The loop of `SpreadsheetValidator._ValidateFieldsAcrossSheets` (source
lines 172-193).  Every read here is a defensive `.get`, so this validator is
total; the set `entity_codes` of `entity.get(ENTITY_CODE)` values (which may
contain Python `None`) is rebuilt on every iteration, exactly as in the
source. -/
def fieldsGo (c : Constants) (entities : Sheet) : Nat → Sheet → List VError
  | _, [] => []
  | k, field :: rest =>
    let fieldReportingEntityCode := rowFind field c.REPORTING_ENTITY_CODE
    let fieldEntityCode := rowFind field c.ENTITY_CODE
    let entityCodes := entities.map (fun e => rowFind e c.ENTITY_CODE)
    (if fieldEntityCode ∈ entityCodes then []
      else [VError.crossSheet c.ENTITY_FIELDS c.ENTITIES k c.ENTITY_CODE
        fieldEntityCode]) ++
    (if fieldReportingEntityCode ∈ entityCodes then []
      else [VError.crossSheet c.ENTITY_FIELDS c.ENTITIES k c.REPORTING_ENTITY_CODE
        fieldReportingEntityCode]) ++
    fieldsGo c entities (k + 1) rest

/-- `SpreadsheetValidator._ValidateFieldsAcrossSheets` (source lines
154-194): `parsed_spreadsheet.get(...)` with default `[]` for both sheets. -/
def validateFieldsAcrossSheets (c : Constants) (sp : Spreadsheet) : List VError :=
  fieldsGo c ((spFind sp c.ENTITIES).getD []) ROW_START_INDEX
    ((spFind sp c.ENTITY_FIELDS).getD [])

/-- The inner loop body of `SpreadsheetValidator._ValidateStatesAcrossSheets`
(source lines 220-226) for one field row: `field[ENTITY_CODE]` and
`field[REPORTING_ENTITY_CODE]` are always read; the two field-name cells are
read only when the corresponding code comparison succeeds.  `stateEntityCode`
and `stateFieldName` come from `.get` and may be Python `None`, which
compares unequal to every string. -/
def fieldDepCount (c : Constants) (stateEntityCode stateFieldName : Option String)
    (field : Row) : Except String Nat := do
  let fec ← keyIndex field c.ENTITY_CODE
  let a ←
    if stateEntityCode = some fec then do
      let fsn ← keyIndex field c.STANDARD_FIELD_NAME
      pure (if stateFieldName = some fsn then 1 else 0)
    else pure 0
  let frec ← keyIndex field c.REPORTING_ENTITY_CODE
  let b ←
    if stateEntityCode = some frec then do
      let frfn ← keyIndex field c.REPORTING_ENTITY_FIELD_NAME
      pure (if stateFieldName = some frfn then 1 else 0)
    else pure 0
  pure (a + b)

/-- The `num_dependencies` accumulation over all field rows. -/
def numDependencies (c : Constants) (stateEntityCode stateFieldName : Option String) :
    Sheet → Except String Nat
  | [] => Except.ok 0
  | field :: rest => do
    let k ← fieldDepCount c stateEntityCode stateFieldName field
    let n ← numDependencies c stateEntityCode stateFieldName rest
    pure (k + n)

/-- The state loop of `SpreadsheetValidator._ValidateStatesAcrossSheets`
(source lines 216-236): `enumerate(states, _ROW_START_INDEX)`; one
`CrossSheetDependencyError` whenever `num_dependencies != 1`. -/
def validateStatesGo (c : Constants) (fields : Sheet) :
    Nat → Sheet → Except String (List VError)
  | _, [] => Except.ok []
  | k, state :: rest => do
    let reportingFieldName := rowFind state c.STANDARD_FIELD_NAME
    let entityCode := rowFind state c.ENTITY_CODE
    let n ← numDependencies c entityCode reportingFieldName fields
    let es ← validateStatesGo c fields (k + 1) rest
    pure ((if n ≠ 1 then
        [VError.crossSheet c.STATES c.ENTITY_FIELDS k c.STANDARD_FIELD_NAME
          reportingFieldName]
      else []) ++ es)

/-- `SpreadsheetValidator._ValidateStatesAcrossSheets` (source lines
196-237): both sheets read with `.get(..., [])`. -/
def validateStatesAcrossSheets (c : Constants) (sp : Spreadsheet) :
    Except String (List VError) :=
  validateStatesGo c ((spFind sp c.ENTITY_FIELDS).getD []) ROW_START_INDEX
    ((spFind sp c.STATES).getD [])

/-- The connection loop of `SpreadsheetValidator._ValidateConnections`
(source lines 293-307).  Both `if` branches read
`connection[SOURCE_ENTITY_CODE]` for `missing_code` and
`connection[TARGET_ENTITY_CODE]` for `present_code` — the second branch does
NOT swap them, exactly as in the source. -/
def connGo (c : Constants) (codes : List String) :
    Nat → Sheet → Except String (List VError)
  | _, [] => Except.ok []
  | k, conn :: rest => do
    let sec ← keyIndex conn c.SOURCE_ENTITY_CODE
    let e1 ←
      if sec ∈ codes then pure []
      else do
        let tec ← keyIndex conn c.TARGET_ENTITY_CODE
        pure [VError.connection k sec tec]
    let tec ← keyIndex conn c.TARGET_ENTITY_CODE
    let e2 :=
      if tec ∈ codes then []
      else [VError.connection k sec tec]
    let es ← connGo c codes (k + 1) rest
    pure (e1 ++ e2 ++ es)

/-- `SpreadsheetValidator._ValidateConnections` (source lines 269-307):
direct indexing for the three sheets, then the union of all entity codes and
all building codes (entity codes first, as in the source), then the row
loop. -/
def validateConnections (c : Constants) (sp : Spreadsheet) :
    Except String (List VError) := do
  let connectionsSheet ← spIndex sp c.CONNECTIONS
  let entitiesSheet ← spIndex sp c.ENTITIES
  let sitesSheet ← spIndex sp c.SITES
  let entityCodes ← codesOf c.ENTITY_CODE entitiesSheet
  let buildingCodes ← codesOf c.BUILDING_CODE sitesSheet
  connGo c (entityCodes ++ buildingCodes) ROW_START_INDEX connectionsSheet

/-- The `validation_parameters` list of `Validate` (source lines 82-93):
`(table name, sheet, required headers, all headers)` for the five tables, in
source order. -/
def validationParams (c : Constants) (sites entities entityFields states connections : Sheet) :
    List (String × Sheet × List String × List String) :=
  [(c.SITES, sites, c.REQUIRED_SITE_HEADERS, c.ALL_SITE_HEADERS),
   (c.ENTITIES, entities, c.REQUIRED_ENTITY_HEADERS, c.ALL_ENTITY_HEADERS),
   (c.ENTITY_FIELDS, entityFields, c.REQUIRED_FIELD_HEADERS, c.ALL_FIELD_HEADERS),
   (c.STATES, states, c.REQUIRED_STATE_HEADERS, c.ALL_STATE_HEADERS),
   (c.CONNECTIONS, connections, c.REQUIRED_CONNECTION_HEADERS, c.ALL_CONNECTION_HEADERS)]

/-- The header loop of `Validate` (source lines 99-103): headers of all five
tables, validated against each table's ALL-headers list (`parameter_list[3]`),
errors concatenated in table order. -/
def headersAll (params : List (String × Sheet × List String × List String)) :
    List VError :=
  (params.map (fun p => validateHeaders p.1 p.2.1 p.2.2.2)).flatten

/-- The structural phase of `Validate` (source lines 96-103): duplicate
entity codes, then facilities GUIDs (both on the Entities sheet), then the
header check for the five tables. -/
def structuralErrors (c : Constants)
    (params : List (String × Sheet × List String × List String))
    (entitiesSheet : Sheet) : Except String (List VError) := do
  let e1 ← validateEntityCodes c entitiesSheet
  let e2 ← validateFacilitiesGuids c entitiesSheet
  pure (e1 ++ e2 ++ headersAll params)

/-- The content loop of `Validate` (source lines 107-111): required-content
check (`parameter_list[2]`) per table, in order, errors concatenated. -/
def contentsAll : List (String × Sheet × List String × List String) →
    Except String (List VError)
  | [] => Except.ok []
  | p :: ps => do
    let e ← validateContents p.1 p.2.1 p.2.2.1
    let es ← contentsAll ps
    pure (e ++ es)

/-- The body of `Validate` after the five top-level lookups succeed (source
lines 94-121).  `errs0` is the instance attribute `self.validation_errors`
at entry — it is never cleared at the start of a call.  The content phase
runs only when the accumulated list (leftover plus structural errors) is
empty; the returned boolean `is_valid` is false exactly when the final list
is non-empty.  The spreadsheet value is returned so that its preservation is
part of the statement. -/
def ValidateCore (c : Constants) (errs0 : List VError) (sp : Spreadsheet)
    (sites entities entityFields states connections : Sheet) :
    Except String (Bool × List VError × Spreadsheet) := do
  let sErrs ← structuralErrors c
    (validationParams c sites entities entityFields states connections) entities
  if (errs0 ++ sErrs).isEmpty then do
    let cErrs ← contentsAll
      (validationParams c sites entities entityFields states connections)
    let stErrs ← validateStatesAcrossSheets c sp
    let cnErrs ← validateConnections c sp
    pure ((errs0 ++ sErrs ++ cErrs ++ validateFieldsAcrossSheets c sp ++
        stErrs ++ cnErrs).isEmpty,
      errs0 ++ sErrs ++ cErrs ++ validateFieldsAcrossSheets c sp ++
        stErrs ++ cnErrs, sp)
  else
    pure ((errs0 ++ sErrs).isEmpty, errs0 ++ sErrs, sp)

/-- `SpreadsheetValidator.Validate` (source lines 63-121).  Building
`validation_parameters` indexes the five tables directly, in source order, so
the first absent table key raises; the result is the `is_valid` boolean, the
final `self.validation_errors`, and the (unmodified) spreadsheet. -/
def Validate (c : Constants) (errs0 : List VError) (sp : Spreadsheet) :
    Except String (Bool × List VError × Spreadsheet) := do
  let sites ← spIndex sp c.SITES
  let entities ← spIndex sp c.ENTITIES
  let entityFields ← spIndex sp c.ENTITY_FIELDS
  let states ← spIndex sp c.STATES
  let connections ← spIndex sp c.CONNECTIONS
  ValidateCore c errs0 sp sites entities entityFields states connections

instance {α β : Type} [DecidableEq α] [DecidableEq β] : DecidableEq (Except α β) :=
  fun x y =>
  match x, y with
  | Except.ok a, Except.ok b =>
    if h : a = b then Decidable.isTrue (by rw [h])
    else Decidable.isFalse (fun hc => h (by injection hc))
  | Except.error a, Except.error b =>
    if h : a = b then Decidable.isTrue (by rw [h])
    else Decidable.isFalse (fun hc => h (by injection hc))
  | Except.ok _, Except.error _ => Decidable.isFalse (fun hc => Except.noConfusion hc)
  | Except.error _, Except.ok _ => Decidable.isFalse (fun hc => Except.noConfusion hc)

theorem ebind_ok {α β : Type} (a : α) (f : α → Except String β) :
    (Except.ok a >>= f) = f a := rfl

theorem ebind_error {α β : Type} (e : String) (f : α → Except String β) :
    ((Except.error e : Except String α) >>= f) = Except.error e := rfl

theorem bind_ok_inv {α β : Type} {x : Except String α} {f : α → Except String β}
    {b : β} (h : x >>= f = Except.ok b) :
    ∃ a, x = Except.ok a ∧ f a = Except.ok b := by
  cases x with
  | ok a => exact ⟨a, rfl, h⟩
  | error e =>
    rw [ebind_error] at h
    exact Except.noConfusion h

theorem ok_inj {α : Type} {a b : α} (h : (Except.ok a : Except String α) = Except.ok b) :
    a = b := by
  injection h

theorem spIndex_of_some {sp : Spreadsheet} {k : String} {v : Sheet}
    (h : spFind sp k = some v) : spIndex sp k = Except.ok v := by
  unfold spIndex
  rw [h]

theorem spIndex_of_none {sp : Spreadsheet} {k : String}
    (h : spFind sp k = none) : spIndex sp k = Except.error k := by
  unfold spIndex
  rw [h]

theorem countP_eq_zero_of_not_mem {l : List String} {h : String} (hm : h ∉ l) :
    l.countP (fun x => decide (x = h)) = 0 := by
  rw [List.countP_eq_zero]
  intro x hx
  simp only [decide_eq_true_eq]
  rintro rfl
  exact hm hx

theorem countP_eq_one_of_nodup {l : List String} {h : String} (hn : l.Nodup)
    (hm : h ∈ l) : l.countP (fun x => decide (x = h)) = 1 := by
  induction l with
  | nil => cases hm
  | cons a as ih =>
    rw [List.countP_cons]
    by_cases heq : a = h
    · subst heq
      have ha : a ∉ as := (List.nodup_cons.mp hn).1
      rw [countP_eq_zero_of_not_mem ha]
      simp
    · have hmem : h ∈ as := by
        rcases List.mem_cons.mp hm with h1 | h1
        · exact absurd h1.symm heq
        · exact h1
      rw [ih (List.nodup_cons.mp hn).2 hmem]
      simp [heq]

/-- C4 (amended): the header check reports exactly the headers missing from
the union of keys of every non-empty PREFIX of the row list; since those
unions grow, this is the set of headers absent from the first row.  Hence the
Header Validator emits no `HeaderError` for a header that is a key of the
FIRST row of a non-empty table — but presence in a later row only does not
prevent the error, contrary to the claim's union-across-all-rows reading. -/
theorem C4_header_of_first_row_not_reported (table : String) (row0 : Row)
    (rest : Sheet) (columnHeaders : List String) (h : String)
    (hmem : h ∈ rowKeys row0) :
    (validateHeaders table (row0 :: rest) columnHeaders).countP (isHeaderFor h) = 0 := by
  unfold validateHeaders
  rw [List.countP_map]
  have hnot : h ∉ validateHeadersAux columnHeaders [] [] (row0 :: rest) := by
    show h ∉ validateHeadersAux columnHeaders ([] ++ rowKeys row0)
      (setUnion [] (columnHeaders.filter (fun x => decide (x ∉ [] ++ rowKeys row0)))) rest
    apply validateHeadersAux_not_mem (List.mem_append.mpr (Or.inr hmem))
    intro hcon
    rcases mem_setUnion.mp hcon with hfalse | hfilter
    · cases hfalse
    · have := List.of_mem_filter hfilter
      simp only [decide_eq_true_eq] at this
      exact this (List.mem_append.mpr (Or.inr hmem))
  rw [List.countP_eq_zero]
  intro x hx
  simp only [Function.comp, isHeaderFor, decide_eq_true_eq]
  rintro rfl
  exact hnot hx

/-- C4 witness: header `h` is a key of the first row; the second row lacks
it; no error is produced. -/
theorem C4_header_of_first_row_not_reported_witness :
    ("h" ∈ rowKeys [("h", "v")]) ∧
    (validateHeaders "T" [[("h", "v")], [("other", "v")]] ["h"]).countP (isHeaderFor "h") = 0 :=
  ⟨by decide, C4_header_of_first_row_not_reported "T" [("h", "v")] [[("other", "v")]]
    ["h"] "h" (by decide)⟩

/-- C4 counterexample: header `h` is a key of the second of two rows (so it
is in the union of keys across all rows), yet the Header Validator reports
it missing, because it was absent from the first row. -/
theorem C4_counterexample :
    ("h" ∈ rowKeys [("h", "v")]) ∧
    (validateHeaders "T" [[("other", "v")], [("h", "v")]] ["h"]).countP (isHeaderFor "h") = 1 := by
  constructor
  · decide
  · decide

/-- C5 (amended): for a table with AT LEAST ONE row, a required header that
is a key of no row yields exactly one `HeaderError`; a zero-row table yields
no `HeaderError` at all (the loop that accumulates the difference never
runs), contrary to the claim's "including zero rows". -/
theorem C5_absent_header_one_error (table : String) (row0 : Row) (rest : Sheet)
    (columnHeaders : List String) (h : String) (hreq : h ∈ columnHeaders)
    (habs : ∀ row ∈ (row0 :: rest : Sheet), h ∉ rowKeys row) :
    (validateHeaders table (row0 :: rest) columnHeaders).countP (isHeaderFor h) = 1 := by
  unfold validateHeaders
  rw [List.countP_map]
  have hment : h ∈ validateHeadersAux columnHeaders [] [] (row0 :: rest) := by
    show h ∈ validateHeadersAux columnHeaders ([] ++ rowKeys row0)
      (setUnion [] (columnHeaders.filter (fun x => decide (x ∉ [] ++ rowKeys row0)))) rest
    apply validateHeadersAux_mono
    apply mem_setUnion.mpr
    refine Or.inr (List.mem_filter.mpr ⟨hreq, ?_⟩)
    simp only [decide_eq_true_eq, List.nil_append]
    exact habs row0 (List.mem_cons_self row0 rest)
  have hnd : (validateHeadersAux columnHeaders [] [] (row0 :: rest)).Nodup :=
    validateHeadersAux_nodup List.nodup_nil
  have : (isHeaderFor h ∘ fun hd => VError.header table hd
      (table ++ " missing required column header: " ++ hd)) =
      fun x => decide (x = h) := by
    funext x
    rfl
  rw [this]
  exact countP_eq_one_of_nodup hnd hment

/-- C5 witness: required header `bc` absent from the single row. -/
theorem C5_absent_header_one_error_witness :
    (validateHeaders "Sites" [[("x", "1")]] ["bc"]).countP (isHeaderFor "bc") = 1 :=
  C5_absent_header_one_error "Sites" [("x", "1")] [] ["bc"] "bc" (by decide)
    (by decide)

/-- C5 counterexample: a zero-row table with a (vacuously absent) required
header produces NO `HeaderError`, not exactly one. -/
theorem C5_counterexample :
    ("bc" ∈ ["bc"]) ∧
    (validateHeaders "Sites" [] ["bc"]).countP (isHeaderFor "bc") = 0 := by
  constructor
  · decide
  · decide

theorem mem_firstDedupAux (x : String) (l : List String) :
    ∀ seen : List String, x ∈ firstDedupAux seen l ↔ x ∈ l ∧ x ∉ seen := by
  induction l with
  | nil => simp [firstDedupAux]
  | cons y ys ih =>
    intro seen
    unfold firstDedupAux
    by_cases hy : y ∈ seen
    · rw [if_pos hy, ih seen]
      simp only [List.mem_cons]
      constructor
      · rintro ⟨h1, h2⟩
        exact ⟨Or.inr h1, h2⟩
      · rintro ⟨rfl | h1, h2⟩
        · exact absurd hy h2
        · exact ⟨h1, h2⟩
    · rw [if_neg hy]
      simp only [List.mem_cons, ih (seen ++ [y]), List.mem_append,
        List.mem_singleton]
      constructor
      · rintro (rfl | ⟨h1, h2⟩)
        · exact ⟨Or.inl rfl, hy⟩
        · exact ⟨Or.inr h1, fun hc => h2 (Or.inl hc)⟩
      · rintro ⟨rfl | h1, h2⟩
        · exact Or.inl rfl
        · by_cases hxy : x = y
          · exact Or.inl hxy
          · exact Or.inr ⟨h1, by simp [h2, hxy]⟩

theorem mem_firstDedup (x : String) (l : List String) :
    x ∈ firstDedup l ↔ x ∈ l := by
  unfold firstDedup
  rw [mem_firstDedupAux]
  simp

theorem nodup_firstDedupAux (l : List String) :
    ∀ seen : List String, (firstDedupAux seen l).Nodup := by
  induction l with
  | nil => simp [firstDedupAux]
  | cons y ys ih =>
    intro seen
    unfold firstDedupAux
    by_cases hy : y ∈ seen
    · rw [if_pos hy]
      exact ih seen
    · rw [if_neg hy]
      refine List.nodup_cons.mpr ⟨?_, ih (seen ++ [y])⟩
      intro hmem
      have := ((mem_firstDedupAux y ys (seen ++ [y])).mp hmem).2
      simp at this

theorem nodup_firstDedup (l : List String) : (firstDedup l).Nodup :=
  nodup_firstDedupAux l []

/-- Recognizer for a `DuplicateCodeError` about code `cd`. -/
def isDupFor (cd : String) : VError → Bool
  | VError.duplicateCode code _ => code = cd
  | _ => false

/-- Recognizer for a `CrossSheetDependencyError` carrying row index `r`. -/
def isCrossRow (r : Nat) : VError → Bool
  | VError.crossSheet _ _ row _ _ => row = r
  | _ => false

/-- C7: whenever `_ValidateEntityCodes` returns (the entity-code column
exists in every row, yielding the code list `codes`), it emits exactly one
`DuplicateCodeError` for each code occurring more than once in `codes`, and
none for any other code — independent of how often a code repeats beyond
two. -/
theorem C7_one_error_per_duplicated_code (c : Constants) (sheet : Sheet)
    (codes : List String) (errs : List VError)
    (hcodes : codesOf c.ENTITY_CODE sheet = Except.ok codes)
    (hok : validateEntityCodes c sheet = Except.ok errs) (cd : String) :
    errs.countP (isDupFor cd) = if 1 < codes.count cd then 1 else 0 := by
  unfold validateEntityCodes at hok
  rw [hcodes, ebind_ok] at hok
  have herrs : dupErrors c.ENTITIES codes = errs := ok_inj hok
  rw [← herrs]
  unfold dupErrors
  rw [List.countP_map]
  have hcomp : (isDupFor cd ∘ fun x => VError.duplicateCode x
      ("Entity Code: " ++ x ++ " is defined more than once in " ++ c.ENTITIES ++ " table.")) =
      fun x => decide (x = cd) := by
    funext x
    rfl
  rw [hcomp]
  by_cases hdup : 1 < codes.count cd
  · rw [if_pos hdup]
    have hmemc : cd ∈ codes := by
      have : 0 < codes.count cd := Nat.lt_of_lt_of_le Nat.zero_lt_one (Nat.le_of_lt hdup)
      exact List.count_pos_iff.mp this
    have hmemf : cd ∈ (firstDedup codes).filter (fun x => decide (1 < codes.count x)) :=
      List.mem_filter.mpr ⟨(mem_firstDedup cd codes).mpr hmemc, decide_eq_true hdup⟩
    exact countP_eq_one_of_nodup (List.Nodup.filter _ (nodup_firstDedup codes)) hmemf
  · rw [if_neg hdup]
    apply countP_eq_zero_of_not_mem
    intro hmemf
    have := List.of_mem_filter hmemf
    simp only [decide_eq_true_eq] at this
    exact hdup this

/-- A concrete valuation of the external constants, used for witnesses and
counterexamples.  The actual values in `model/constants.py` are immaterial to
the validator's logic; only the shapes demanded by the spec (each required
set includes the named join columns and is a subset of the all-headers set)
matter. -/
def c0 : Constants where
  SITES := "Sites"
  ENTITIES := "Entities"
  ENTITY_FIELDS := "Fields"
  STATES := "States"
  CONNECTIONS := "Connections"
  ENTITY_CODE := "ec"
  BUILDING_CODE := "bc"
  BC_GUID := "guid"
  NAMESPACE := "ns"
  FACILITIES_NAMESPACE := "FACILITIES"
  SOURCE_ENTITY_CODE := "sec"
  TARGET_ENTITY_CODE := "tec"
  STANDARD_FIELD_NAME := "sfn"
  REPORTING_ENTITY_CODE := "rec"
  REPORTING_ENTITY_FIELD_NAME := "rfn"
  REQUIRED_SITE_HEADERS := ["bc"]
  ALL_SITE_HEADERS := ["bc"]
  REQUIRED_ENTITY_HEADERS := ["ec", "ns"]
  ALL_ENTITY_HEADERS := ["ec", "ns", "guid"]
  REQUIRED_FIELD_HEADERS := ["ec", "rec", "sfn", "rfn"]
  ALL_FIELD_HEADERS := ["ec", "rec", "sfn", "rfn"]
  REQUIRED_STATE_HEADERS := ["ec", "sfn"]
  ALL_STATE_HEADERS := ["ec", "sfn"]
  REQUIRED_CONNECTION_HEADERS := ["sec", "tec"]
  ALL_CONNECTION_HEADERS := ["sec", "tec"]

/-- A fully consistent spreadsheet: no duplicate codes, all headers present,
all required cells non-empty, every cross-sheet reference resolves, and the
single state maps to exactly one field. -/
def spGood : Spreadsheet :=
  [("Sites", [[("bc", "B1")]]),
   ("Entities", [[("ec", "E1"), ("ns", "HVAC"), ("guid", "g1")]]),
   ("Fields", [[("ec", "E1"), ("rec", "E1"), ("sfn", "f1"), ("rfn", "f2")]]),
   ("States", [[("ec", "E1"), ("sfn", "f1")]]),
   ("Connections", [[("sec", "E1"), ("tec", "B1")]])]

/-- A spreadsheet whose Entities sheet defines code `E1` twice: the
structural phase reports a `DuplicateCodeError`. -/
def spDup : Spreadsheet :=
  [("Sites", [[("bc", "B1")]]),
   ("Entities", [[("ec", "E1"), ("ns", "HVAC"), ("guid", "g1")],
                 [("ec", "E1"), ("ns", "HVAC"), ("guid", "g2")]]),
   ("Fields", []),
   ("States", []),
   ("Connections", [])]

/-- The error list accumulated by a `Validate` call on `spDup`. -/
def staleErrs : List VError :=
  [VError.duplicateCode "E1"
    "Entity Code: E1 is defined more than once in Entities table."]

/-- C10: the validity boolean is a function of the instance's error-list
state as well as of the input.  `spGood` validates as true on a fresh
instance (empty accumulated list); a previous call on `spDup` leaves
`staleErrs` in `self.validation_errors` (never cleared on entry), and the
subsequent call on the very same consistent `spGood` then returns false. -/
theorem C10_validate_reads_stale_instance_state :
    Validate c0 [] spGood = Except.ok (true, [], spGood) ∧
    Validate c0 [] spDup = Except.ok (false, staleErrs, spDup) ∧
    staleErrs ≠ [] ∧
    Validate c0 staleErrs spGood = Except.ok (false, staleErrs, spGood) := by
  refine ⟨by decide, by decide, by decide, by decide⟩

/-- C2 (code bug): `ValidateFacilitiesGuids` enumerates its sheet WITHOUT
the `_ROW_START_INDEX` offset used by every other row-reporting validator,
so the error for the first row carries row index 0, not 2: the claim (and
the spec's row-numbering invariant) is violated by this validator. -/
theorem C2_facilities_error_row_index_is_zero :
    validateFacilitiesGuids c0 [[("ec", "E1"), ("ns", "FACILITIES"), ("guid", "")]] =
      Except.ok [VError.missingValue "Entities" 0 "guid"
        "E1 in FACILITIES namespace must have a guid obtained through DB API export building config operation."] ∧
    ROW_START_INDEX = 2 := by
  refine ⟨by decide, rfl⟩

/-- The C3 failing input: the connection's source code `B1` is a Sites
building code (present), its target code `X` occurs nowhere. -/
def spConn : Spreadsheet :=
  [("Sites", [[("bc", "B1")]]),
   ("Entities", [[("ec", "E1"), ("ns", "HVAC"), ("guid", "g1")]]),
   ("Fields", []),
   ("States", []),
   ("Connections", [[("sec", "B1"), ("tec", "X")]])]

/-- C3 (code bug): exactly one `ConnectionDependencyError` is produced for
the row (the count in the claim is right), but BOTH branches of
`_ValidateConnections` fill `missing_code` from the source column and
`present_code` from the target column, so the error for a missing TARGET
carries `missing_code = "B1"` — the code that is present — and
`present_code = "X"` — the code that is missing — the opposite of the
claim. -/
theorem C3_connection_error_payload_swapped :
    validateConnections c0 spConn = Except.ok [VError.connection 2 "B1" "X"] ∧
    ("B1" ∈ ["B1"] ∧ "X" ∉ ["E1", "B1"]) := by
  refine ⟨by decide, by decide, by decide⟩

/-- Entities rows with the duplicate pattern `[A, B, A, C, B, B]`. -/
def dupSheet : Sheet :=
  [[("ec", "A")], [("ec", "B")], [("ec", "A")], [("ec", "C")], [("ec", "B")],
   [("ec", "B")]]

/-- The two errors produced for `dupSheet`. -/
def dupSheetErrs : List VError :=
  [VError.duplicateCode "A"
      "Entity Code: A is defined more than once in Entities table.",
   VError.duplicateCode "B"
      "Entity Code: B is defined more than once in Entities table."]

/-- C7 witness: on codes `[A, B, A, C, B, B]` there is exactly one error for
`A`, exactly one for `B`, none for `C`, and two errors in total. -/
theorem C7_one_error_per_duplicated_code_witness :
    dupSheetErrs.countP (isDupFor "A") = 1 ∧
    dupSheetErrs.countP (isDupFor "B") = 1 ∧
    dupSheetErrs.countP (isDupFor "C") = 0 ∧
    validateEntityCodes c0 dupSheet = Except.ok dupSheetErrs ∧
    dupSheetErrs.length = 2 := by
  refine ⟨?_, ?_, ?_, by decide, by decide⟩
  · exact (C7_one_error_per_duplicated_code c0 dupSheet
      ["A", "B", "A", "C", "B", "B"] dupSheetErrs (by decide) (by decide) "A").trans
      (by decide)
  · exact (C7_one_error_per_duplicated_code c0 dupSheet
      ["A", "B", "A", "C", "B", "B"] dupSheetErrs (by decide) (by decide) "B").trans
      (by decide)
  · exact (C7_one_error_per_duplicated_code c0 dupSheet
      ["A", "B", "A", "C", "B", "B"] dupSheetErrs (by decide) (by decide) "C").trans
      (by decide)

/-- C8: if any of the five top-level table keys is absent from the input
mapping, `Validate` fails with a lookup error instead of returning a
boolean, whatever the instance state: building `validation_parameters`
indexes all five tables directly (source lines 82-93). -/
theorem C8_missing_table_key_raises (c : Constants) (errs0 : List VError)
    (sp : Spreadsheet)
    (h : spFind sp c.SITES = none ∨ spFind sp c.ENTITIES = none ∨
      spFind sp c.ENTITY_FIELDS = none ∨ spFind sp c.STATES = none ∨
      spFind sp c.CONNECTIONS = none) :
    ∃ e : String, Validate c errs0 sp = Except.error e := by
  unfold Validate
  cases h1 : spFind sp c.SITES with
  | none => exact ⟨c.SITES, by simp only [spIndex_of_none h1, ebind_error]⟩
  | some sites =>
    simp only [spIndex_of_some h1, ebind_ok]
    cases h2 : spFind sp c.ENTITIES with
    | none => exact ⟨c.ENTITIES, by simp only [spIndex_of_none h2, ebind_error]⟩
    | some entities =>
      simp only [spIndex_of_some h2, ebind_ok]
      cases h3 : spFind sp c.ENTITY_FIELDS with
      | none =>
        exact ⟨c.ENTITY_FIELDS, by simp only [spIndex_of_none h3, ebind_error]⟩
      | some entityFields =>
        simp only [spIndex_of_some h3, ebind_ok]
        cases h4 : spFind sp c.STATES with
        | none => exact ⟨c.STATES, by simp only [spIndex_of_none h4, ebind_error]⟩
        | some states =>
          simp only [spIndex_of_some h4, ebind_ok]
          cases h5 : spFind sp c.CONNECTIONS with
          | none =>
            exact ⟨c.CONNECTIONS, by simp only [spIndex_of_none h5, ebind_error]⟩
          | some connections =>
            exfalso
            rcases h with h' | h' | h' | h' | h' <;> simp_all

/-- An input mapping that lacks the States table key. -/
def spNoStates : Spreadsheet :=
  [("Sites", []), ("Entities", []), ("Fields", []), ("Connections", [])]

/-- C8 witness: the mapping without a States table makes `Validate` raise. -/
theorem C8_missing_table_key_raises_witness :
    ∃ e : String, Validate c0 [] spNoStates = Except.error e :=
  C8_missing_table_key_raises c0 [] spNoStates
    (Or.inr (Or.inr (Or.inr (Or.inl (by decide)))))

/-- C9: a completed `Validate` call hands back the spreadsheet it was given
unchanged — every operation in every phase of the embedding is a read, in
accordance with the source, where no statement assigns into
`parsed_spreadsheet` or its rows. -/
theorem C9_validate_preserves_spreadsheet (c : Constants) (errs0 : List VError)
    (sp : Spreadsheet) (b : Bool) (errs : List VError) (sp' : Spreadsheet)
    (h : Validate c errs0 sp = Except.ok (b, errs, sp')) : sp' = sp := by
  unfold Validate at h
  obtain ⟨sites, h1, h⟩ := bind_ok_inv h
  obtain ⟨entities, h2, h⟩ := bind_ok_inv h
  obtain ⟨entityFields, h3, h⟩ := bind_ok_inv h
  obtain ⟨states, h4, h⟩ := bind_ok_inv h
  obtain ⟨connections, h5, h⟩ := bind_ok_inv h
  unfold ValidateCore at h
  obtain ⟨sErrs, h6, h⟩ := bind_ok_inv h
  split at h
  · obtain ⟨cErrs, h7, h⟩ := bind_ok_inv h
    obtain ⟨stErrs, h8, h⟩ := bind_ok_inv h
    obtain ⟨cnErrs, h9, h⟩ := bind_ok_inv h
    have h10 := ok_inj h
    injection h10 with hb h11
    injection h11 with he hsp
    exact hsp.symm
  · have h10 := ok_inj h
    injection h10 with hb h11
    injection h11 with he hsp
    exact hsp.symm

/-- C9 witness: on the consistent spreadsheet the call completes and returns
the same spreadsheet value. -/
theorem C9_validate_preserves_spreadsheet_witness : spGood = spGood :=
  C9_validate_preserves_spreadsheet c0 [] spGood true [] spGood (by decide)

theorem contentsRow_mem (table : String) (k : Nat) (row : Row) (col : String)
    (hval : rowFind row col = some "") :
    ∀ (req : List String) (es : List VError),
      contentsRow table k row req = Except.ok es → col ∈ req →
      VError.missingValue table k col (table ++ " entry must have a " ++ col) ∈ es := by
  intro req
  induction req with
  | nil =>
    intro es _ hcol
    cases hcol
  | cons hd hs ih =>
    intro es hok hcol
    unfold contentsRow at hok
    obtain ⟨v, hv, hok⟩ := bind_ok_inv hok
    obtain ⟨es', hes', hok⟩ := bind_ok_inv hok
    have heq := ok_inj hok
    rcases List.mem_cons.mp hcol with heqc | hcol'
    · subst heqc
      have hv' : v = "" := by
        unfold keyIndex at hv
        rw [hval] at hv
        exact (ok_inj hv).symm
      rw [← heq, hv']
      simp
    · rw [← heq]
      exact List.mem_append.mpr (Or.inr (ih es' hes' hcol'))

theorem validateContentsAux_mem (table : String) (req : List String)
    (col : String) (hcol : col ∈ req) :
    ∀ (rows : Sheet) (k i : Nat) (row : Row) (es : List VError),
      validateContentsAux table req k rows = Except.ok es →
      rows.get? i = some row → rowFind row col = some "" →
      VError.missingValue table (k + i) col
        (table ++ " entry must have a " ++ col) ∈ es := by
  intro rows
  induction rows with
  | nil =>
    intro k i row es _ hrow
    simp at hrow
  | cons r rs ih =>
    intro k i row es hok hrow hval
    unfold validateContentsAux at hok
    obtain ⟨e, he, hok⟩ := bind_ok_inv hok
    obtain ⟨es', hes', hok⟩ := bind_ok_inv hok
    have heq := ok_inj hok
    cases i with
    | zero =>
      have hr : r = row := by simpa using hrow
      subst hr
      rw [← heq]
      simp only [Nat.add_zero]
      exact List.mem_append.mpr (Or.inl (contentsRow_mem table k r col hval req e he hcol))
    | succ j =>
      have hrow' : rs.get? j = some row := by simpa using hrow
      have hmem := ih (k + 1) j row es' hes' hrow' hval
      rw [← heq]
      refine List.mem_append.mpr (Or.inr ?_)
      have harith : k + 1 + j = k + (j + 1) := by omega
      rw [harith] at hmem
      exact hmem

theorem contentsAll_mem :
    ∀ (ps : List (String × Sheet × List String × List String)) (es : List VError),
      contentsAll ps = Except.ok es →
      ∀ p ∈ ps, ∃ e', validateContents p.1 p.2.1 p.2.2.1 = Except.ok e' ∧
        ∀ x ∈ e', x ∈ es := by
  intro ps
  induction ps with
  | nil =>
    intro es _ p hp
    cases hp
  | cons q qs ih =>
    intro es hok p hp
    unfold contentsAll at hok
    obtain ⟨e, he, hok⟩ := bind_ok_inv hok
    obtain ⟨es', hes', hok⟩ := bind_ok_inv hok
    have heq := ok_inj hok
    rcases List.mem_cons.mp hp with heqp | hp'
    · subst heqp
      refine ⟨e, he, fun x hx => ?_⟩
      rw [← heq]
      exact List.mem_append.mpr (Or.inl hx)
    · obtain ⟨e', he', hsub⟩ := ih es' hes' p hp'
      refine ⟨e', he', fun x hx => ?_⟩
      rw [← heq]
      exact List.mem_append.mpr (Or.inr (hsub x hx))

/-- C1 (amended): on a fresh validator (empty error state), if the
structural phase produces zero errors AND the call completes without a
lookup failure, then any row with an empty string in a required-content
column makes `Validate` return false with a `MissingSpreadsheetValueError`
for that (row, column) pair in the final accumulated list.  (The original
claim, without the completion hypothesis, is refuted by
`C1_counterexample`: a row that lacks a required key entirely — while a
different row of the same table supplies the header, so the header check
passes — makes the content phase raise a `KeyError` instead of returning
false.) -/
theorem C1_empty_required_cell_fails (c : Constants) (sp : Spreadsheet)
    (sites entities entityFields states connections : Sheet)
    (h1 : spFind sp c.SITES = some sites)
    (h2 : spFind sp c.ENTITIES = some entities)
    (h3 : spFind sp c.ENTITY_FIELDS = some entityFields)
    (h4 : spFind sp c.STATES = some states)
    (h5 : spFind sp c.CONNECTIONS = some connections)
    (hstruct : structuralErrors c
      (validationParams c sites entities entityFields states connections)
      entities = Except.ok [])
    (b : Bool) (errs : List VError) (sp' : Spreadsheet)
    (hok : Validate c [] sp = Except.ok (b, errs, sp'))
    (t : String) (sheet : Sheet) (req allh : List String)
    (hparam : (t, sheet, req, allh) ∈
      validationParams c sites entities entityFields states connections)
    (i : Nat) (row : Row) (hrow : sheet.get? i = some row)
    (col : String) (hcol : col ∈ req) (hval : rowFind row col = some "") :
    b = false ∧
      VError.missingValue t (ROW_START_INDEX + i) col
        (t ++ " entry must have a " ++ col) ∈ errs := by
  unfold Validate at hok
  simp only [spIndex_of_some h1, spIndex_of_some h2, spIndex_of_some h3,
    spIndex_of_some h4, spIndex_of_some h5, ebind_ok] at hok
  unfold ValidateCore at hok
  rw [hstruct, ebind_ok] at hok
  simp only [List.append_nil, List.isEmpty_nil, if_true] at hok
  obtain ⟨cErrs, h7, hok⟩ := bind_ok_inv hok
  obtain ⟨stErrs, h8, hok⟩ := bind_ok_inv hok
  obtain ⟨cnErrs, h9, hok⟩ := bind_ok_inv hok
  have h10 := ok_inj hok
  injection h10 with hb h11
  injection h11 with he hsp
  obtain ⟨e', he', hsub⟩ := contentsAll_mem _ _ h7 (t, sheet, req, allh) hparam
  have hmem : VError.missingValue t (ROW_START_INDEX + i) col
      (t ++ " entry must have a " ++ col) ∈ e' := by
    unfold validateContents at he'
    exact validateContentsAux_mem t req col hcol sheet ROW_START_INDEX i row e'
      he' hrow hval
  have hmemerrs : VError.missingValue t (ROW_START_INDEX + i) col
      (t ++ " entry must have a " ++ col) ∈ errs := by
    rw [← he]
    have := hsub _ hmem
    simp [List.mem_append, this]
  refine ⟨?_, hmemerrs⟩
  rw [he] at hb
  rw [← hb]
  cases herrs : errs with
  | nil => exact absurd herrs (List.ne_nil_of_mem hmemerrs)
  | cons x xs => rfl

/-- The Entities sheet shared by the C1 concrete inputs. -/
def entC1 : Sheet := [[("ec", "E1"), ("ns", "HVAC"), ("guid", "g1")]]

/-- Fields sheet whose first row exposes every field header (so the header
check passes, by first-row semantics) with an empty `sfn` cell, while the
second row lacks the required `rec` key entirely. -/
def fieldsC1 : Sheet :=
  [[("ec", "E1"), ("rec", "E1"), ("sfn", ""), ("rfn", "x")], [("ec", "E1")]]

/-- The C1 counterexample spreadsheet. -/
def spC1 : Spreadsheet :=
  [("Sites", [[("bc", "B1")]]), ("Entities", entC1), ("Fields", fieldsC1),
   ("States", []), ("Connections", [])]

/-- C1 counterexample: the structural phase produces zero errors and row 2 of
the Fields table has an empty string in the required `sfn` column, yet
`Validate` does not return false — it raises a `KeyError` for `rec` when the
content check reaches the second row, which lacks that required key. -/
theorem C1_counterexample :
    structuralErrors c0
      (validationParams c0 [[("bc", "B1")]] entC1 fieldsC1 [] []) entC1 =
      Except.ok [] ∧
    fieldsC1.get? 0 = some [("ec", "E1"), ("rec", "E1"), ("sfn", ""), ("rfn", "x")] ∧
    "sfn" ∈ c0.REQUIRED_FIELD_HEADERS ∧
    rowFind [("ec", "E1"), ("rec", "E1"), ("sfn", ""), ("rfn", "x")] "sfn" = some "" ∧
    Validate c0 [] spC1 = Except.error "rec" := by
  refine ⟨by decide, by decide, by decide, by decide, by decide⟩

/-- Fields sheet with an empty required `sfn` cell and no malformed rows. -/
def fieldsC1W : Sheet := [[("ec", "E1"), ("rec", "E1"), ("sfn", ""), ("rfn", "x")]]

/-- The C1 witness spreadsheet. -/
def spC1W : Spreadsheet :=
  [("Sites", [[("bc", "B1")]]), ("Entities", entC1), ("Fields", fieldsC1W),
   ("States", []), ("Connections", [])]

/-- The error list `Validate` accumulates on `spC1W`. -/
def errsC1W : List VError :=
  [VError.missingValue "Fields" 2 "sfn" "Fields entry must have a sfn"]

/-- C1 witness: on `spC1W` the structural phase is clean, the call completes,
and the empty `sfn` cell of row 2 yields `false` plus the corresponding
`MissingSpreadsheetValueError`. -/
theorem C1_empty_required_cell_fails_witness :
    (false : Bool) = false ∧
      VError.missingValue "Fields" (ROW_START_INDEX + 0) "sfn"
        ("Fields" ++ " entry must have a " ++ "sfn") ∈ errsC1W :=
  C1_empty_required_cell_fails c0 spC1W [[("bc", "B1")]] entC1 fieldsC1W [] []
    (by decide) (by decide) (by decide) (by decide) (by decide) (by decide)
    false errsC1W spC1W (by decide) "Fields" fieldsC1W
    ["ec", "rec", "sfn", "rfn"] ["ec", "rec", "sfn", "rfn"] (by decide) 0
    [("ec", "E1"), ("rec", "E1"), ("sfn", ""), ("rfn", "x")] (by decide)
    "sfn" (by decide) (by decide)

/-- Branch (a) of the dependency rule of `_ValidateStatesAcrossSheets`: the
field's own entity-code cell exists and equals the state's entity code, and
the field's own standard-field-name cell exists and equals the state's
reported field name. -/
def depBranchA (c : Constants) (stateEntityCode stateFieldName : Option String)
    (field : Row) : Prop :=
  (rowFind field c.ENTITY_CODE).isSome ∧
  stateEntityCode = rowFind field c.ENTITY_CODE ∧
  (rowFind field c.STANDARD_FIELD_NAME).isSome ∧
  stateFieldName = rowFind field c.STANDARD_FIELD_NAME

/-- Branch (b): the field's reporting-entity-code cell exists and equals the
state's entity code, and the field's reporting-field-name cell exists and
equals the state's reported field name. -/
def depBranchB (c : Constants) (stateEntityCode stateFieldName : Option String)
    (field : Row) : Prop :=
  (rowFind field c.REPORTING_ENTITY_CODE).isSome ∧
  stateEntityCode = rowFind field c.REPORTING_ENTITY_CODE ∧
  (rowFind field c.REPORTING_ENTITY_FIELD_NAME).isSome ∧
  stateFieldName = rowFind field c.REPORTING_ENTITY_FIELD_NAME

instance (c : Constants) (a b : Option String) (f : Row) :
    Decidable (depBranchA c a b f) := by
  unfold depBranchA
  infer_instance

instance (c : Constants) (a b : Option String) (f : Row) :
    Decidable (depBranchB c a b f) := by
  unfold depBranchB
  infer_instance

/-- The dependency total of the claim: summed over all field rows, one for
each satisfied branch — a field satisfying both branches contributes 2. -/
def specSum (c : Constants) (stateEntityCode stateFieldName : Option String)
    (fields : Sheet) : Nat :=
  (fields.map (fun f =>
    (if depBranchA c stateEntityCode stateFieldName f then 1 else 0) +
    (if depBranchB c stateEntityCode stateFieldName f then 1 else 0))).sum

theorem fieldDepCount_ok (c : Constants) (stEC stFN : Option String) (f : Row)
    (h1 : (rowFind f c.ENTITY_CODE).isSome)
    (h2 : (rowFind f c.STANDARD_FIELD_NAME).isSome)
    (h3 : (rowFind f c.REPORTING_ENTITY_CODE).isSome)
    (h4 : (rowFind f c.REPORTING_ENTITY_FIELD_NAME).isSome) :
    fieldDepCount c stEC stFN f = Except.ok
      ((if depBranchA c stEC stFN f then 1 else 0) +
       (if depBranchB c stEC stFN f then 1 else 0)) := by
  obtain ⟨fec, hfec⟩ := Option.isSome_iff_exists.mp h1
  obtain ⟨fsn, hfsn⟩ := Option.isSome_iff_exists.mp h2
  obtain ⟨frec, hfrec⟩ := Option.isSome_iff_exists.mp h3
  obtain ⟨frfn, hfrfn⟩ := Option.isSome_iff_exists.mp h4
  have hAeq : (if depBranchA c stEC stFN f then (1 : Nat) else 0) =
      (if stEC = some fec then (if stFN = some fsn then 1 else 0) else 0) := by
    by_cases hA : stEC = some fec <;> by_cases hS : stFN = some fsn <;>
      simp [depBranchA, hfec, hfsn, hA, hS]
  have hBeq : (if depBranchB c stEC stFN f then (1 : Nat) else 0) =
      (if stEC = some frec then (if stFN = some frfn then 1 else 0) else 0) := by
    by_cases hB : stEC = some frec <;> by_cases hR : stFN = some frfn <;>
      simp [depBranchB, hfrec, hfrfn, hB, hR]
  rw [hAeq, hBeq]
  unfold fieldDepCount keyIndex
  rw [hfec, hfsn, hfrec, hfrfn]
  by_cases hA : stEC = some fec <;> by_cases hB : stEC = some frec
  · simp only [if_pos hA, if_pos hB, ebind_ok]
    rfl
  · simp only [if_pos hA, if_neg hB, ebind_ok]
    rfl
  · simp only [if_neg hA, if_pos hB, ebind_ok]
    rfl
  · simp only [if_neg hA, if_neg hB, ebind_ok]
    rfl

theorem numDependencies_ok (c : Constants) (stEC stFN : Option String) :
    ∀ fields : Sheet,
      (∀ f ∈ fields, (rowFind f c.ENTITY_CODE).isSome ∧
        (rowFind f c.STANDARD_FIELD_NAME).isSome ∧
        (rowFind f c.REPORTING_ENTITY_CODE).isSome ∧
        (rowFind f c.REPORTING_ENTITY_FIELD_NAME).isSome) →
      numDependencies c stEC stFN fields =
        Except.ok (specSum c stEC stFN fields) := by
  intro fields
  induction fields with
  | nil =>
    intro _
    rfl
  | cons f fs ih =>
    intro hkeys
    have hf := hkeys f (List.mem_cons_self f fs)
    unfold numDependencies
    rw [fieldDepCount_ok c stEC stFN f hf.1 hf.2.1 hf.2.2.1 hf.2.2.2, ebind_ok,
      ih (fun g hg => hkeys g (List.mem_cons_of_mem f hg)), ebind_ok]
    show Except.ok _ = _
    congr 1

theorem validateStatesGo_rows (c : Constants) (fields : Sheet) :
    ∀ (states : Sheet) (k : Nat) (errs : List VError),
      validateStatesGo c fields k states = Except.ok errs →
      ∀ e ∈ errs, ∃ r v, e = VError.crossSheet c.STATES c.ENTITY_FIELDS r
        c.STANDARD_FIELD_NAME v ∧ k ≤ r := by
  intro states
  induction states with
  | nil =>
    intro k errs hok e he
    unfold validateStatesGo at hok
    rw [← ok_inj hok] at he
    cases he
  | cons st sts ih =>
    intro k errs hok e he
    unfold validateStatesGo at hok
    obtain ⟨n, hn, hok⟩ := bind_ok_inv hok
    obtain ⟨es', hes, hok⟩ := bind_ok_inv hok
    rw [← ok_inj hok] at he
    rcases List.mem_append.mp he with hblk | hrest
    · by_cases h1 : n ≠ 1
      · rw [if_pos h1] at hblk
        rcases List.mem_singleton.mp hblk with rfl
        exact ⟨k, rowFind st c.STANDARD_FIELD_NAME, rfl, Nat.le_refl k⟩
      · rw [if_neg h1] at hblk
        cases hblk
    · obtain ⟨r, v, hev, hr⟩ := ih (k + 1) es' hes e hrest
      exact ⟨r, v, hev, Nat.le_of_succ_le hr⟩

theorem validateStatesGo_count (c : Constants) (fields : Sheet)
    (hkeys : ∀ f ∈ fields, (rowFind f c.ENTITY_CODE).isSome ∧
      (rowFind f c.STANDARD_FIELD_NAME).isSome ∧
      (rowFind f c.REPORTING_ENTITY_CODE).isSome ∧
      (rowFind f c.REPORTING_ENTITY_FIELD_NAME).isSome) :
    ∀ (states : Sheet) (k : Nat) (errs : List VError),
      validateStatesGo c fields k states = Except.ok errs →
      ∀ (i : Nat) (state : Row), states.get? i = some state →
      errs.countP (isCrossRow (k + i)) =
        if specSum c (rowFind state c.ENTITY_CODE)
            (rowFind state c.STANDARD_FIELD_NAME) fields = 1 then 0 else 1 := by
  intro states
  induction states with
  | nil =>
    intro k errs hok i state hst
    simp at hst
  | cons st sts ih =>
    intro k errs hok i state hst
    unfold validateStatesGo at hok
    obtain ⟨n, hn, hok⟩ := bind_ok_inv hok
    obtain ⟨es', hes, hok⟩ := bind_ok_inv hok
    have heq := ok_inj hok
    have hnum := numDependencies_ok c (rowFind st c.ENTITY_CODE)
      (rowFind st c.STANDARD_FIELD_NAME) fields hkeys
    cases i with
    | zero =>
      have hstate : st = state := by simpa using hst
      subst hstate
      have hn' : n = specSum c (rowFind st c.ENTITY_CODE)
          (rowFind st c.STANDARD_FIELD_NAME) fields := by
        rw [hn] at hnum
        exact ok_inj hnum
      rw [← heq, List.countP_append]
      have hes0 : es'.countP (isCrossRow (k + 0)) = 0 := by
        rw [List.countP_eq_zero]
        intro e he
        obtain ⟨r, v, hev, hr⟩ := validateStatesGo_rows c fields sts (k + 1) es' hes e he
        subst hev
        simp only [isCrossRow, decide_eq_true_eq]
        omega
      rw [hes0]
      by_cases h1 : n ≠ 1
      · rw [if_pos h1]
        rw [if_neg (by rw [← hn']; exact h1)]
        simp [isCrossRow]
      · rw [if_neg h1]
        rw [if_pos (by rw [← hn']; omega)]
        simp
    | succ j =>
      have hst' : sts.get? j = some state := by simpa using hst
      rw [← heq, List.countP_append]
      have hblk : ((if n ≠ 1 then
          [VError.crossSheet c.STATES c.ENTITY_FIELDS k c.STANDARD_FIELD_NAME
            (rowFind st c.STANDARD_FIELD_NAME)] else []) : List VError).countP
          (isCrossRow (k + (j + 1))) = 0 := by
        by_cases h1 : n ≠ 1
        · rw [if_pos h1]
          have hne : ¬(k = k + (j + 1)) := by omega
          simp [List.countP_cons, List.countP_nil, isCrossRow, hne]
        · rw [if_neg h1]
          rfl
      rw [hblk]
      have hrec := ih (k + 1) es' hes j state hst'
      have harith : k + 1 + j = k + (j + 1) := by omega
      rw [harith] at hrec
      simpa using hrec

/-- C6: whenever `_ValidateStatesAcrossSheets` returns (every field row has
the four cells the rule indexes), each States row receives exactly one
`CrossSheetDependencyError` if and only if the dependency total — summed
over all EntityFields rows, one per satisfied branch, 2 for a field
satisfying both branches (no deduplication) — differs from 1, and no error
otherwise. -/
theorem C6_state_maps_to_exactly_one_field (c : Constants) (sp : Spreadsheet)
    (states fields : Sheet)
    (hs : (spFind sp c.STATES).getD [] = states)
    (hf : (spFind sp c.ENTITY_FIELDS).getD [] = fields)
    (hkeys : ∀ f ∈ fields, (rowFind f c.ENTITY_CODE).isSome ∧
      (rowFind f c.STANDARD_FIELD_NAME).isSome ∧
      (rowFind f c.REPORTING_ENTITY_CODE).isSome ∧
      (rowFind f c.REPORTING_ENTITY_FIELD_NAME).isSome)
    (errs : List VError)
    (hok : validateStatesAcrossSheets c sp = Except.ok errs)
    (i : Nat) (state : Row) (hst : states.get? i = some state) :
    errs.countP (isCrossRow (ROW_START_INDEX + i)) =
      if specSum c (rowFind state c.ENTITY_CODE)
          (rowFind state c.STANDARD_FIELD_NAME) fields = 1 then 0 else 1 := by
  unfold validateStatesAcrossSheets at hok
  rw [hs, hf] at hok
  exact validateStatesGo_count c fields hkeys states ROW_START_INDEX errs hok
    i state hst

/-- A field row whose own codes AND reporting codes both match the C6
witness state: it satisfies both branches of the dependency rule. -/
def fieldsC6 : Sheet :=
  [[("ec", "E1"), ("rec", "E1"), ("sfn", "f1"), ("rfn", "f1")]]

/-- The C6 witness state row. -/
def stateC6 : Row := [("ec", "E1"), ("sfn", "f1")]

/-- The C6 witness spreadsheet. -/
def spC6 : Spreadsheet := [("Fields", fieldsC6), ("States", [stateC6])]

/-- The single error the state validator emits on `spC6`. -/
def errsC6 : List VError :=
  [VError.crossSheet "States" "Fields" 2 "sfn" (some "f1")]

/-- C6 witness: one field satisfying BOTH branches contributes 2, so the
dependency total for the single state is 2 ≠ 1 and the state receives
exactly one `CrossSheetDependencyError`. -/
theorem C6_state_maps_to_exactly_one_field_witness :
    errsC6.countP (isCrossRow (ROW_START_INDEX + 0)) =
      (if specSum c0 (rowFind stateC6 c0.ENTITY_CODE)
          (rowFind stateC6 c0.STANDARD_FIELD_NAME) fieldsC6 = 1 then 0 else 1) ∧
    specSum c0 (rowFind stateC6 c0.ENTITY_CODE)
      (rowFind stateC6 c0.STANDARD_FIELD_NAME) fieldsC6 = 2 :=
  ⟨C6_state_maps_to_exactly_one_field c0 spC6 [stateC6] fieldsC6 (by decide)
    (by decide) (by decide) errsC6 (by decide) 0 stateC6 (by decide),
   by decide⟩
